import Mathlib

/-!
Shallow embedding of the LockOnTarget plugin's target-selection core.

Sources:
* src/Source/LockOnTarget/Private/TargetManager.cpp — target registry.
* src/Source/LockOnTarget/Public/LockOnSubobjects/TargetHandlers/DefaultTargetHandler.h
  — data model, configuration and the declared execution flow of the default
  target handler.  The corresponding .cpp bodies are not part of the sources,
  so those operations are modelled from the specification (spec.md §4.3–§4.5,
  §9) guided by the header's execution-flow comment; each such definition is
  marked "Modelled from the spec".

Targets, helper components and sockets are identified by natural numbers;
float scalars are modelled as rationals.
-/

/-- FLT_MAX sentinel used to initialise FTargetModifier.Modifier (value of the
largest finite IEEE-754 single, (2^24 - 1) * 2^104). -/
def FLT_MAX : ℚ := 340282346638528859811704183484516925440

namespace UTargetManager

/-- UTargetManager::RegisterTarget (TargetManager.cpp lines 28–38).
The registered set is a TSet of target-component pointers; a null pointer is
modelled as none.  bHasAlreadyBeen starts true; TSet::Add stores the element
and reports whether it had already been present; the function returns the
negation. -/
def RegisterTarget (Target : Option Nat) (Targets : Finset Nat) : Bool × Finset Nat :=
  match Target with
  | none => (!true, Targets)
  | some t =>
    let bHasAlreadyBeen : Bool := t ∈ Targets
    (!bHasAlreadyBeen, insert t Targets)

/-- UTargetManager::UnregisterTarget (TargetManager.cpp lines 40–43).
TSet::Remove returns the number of removed elements; the function returns
whether it is positive.  A null pointer is never stored, so removing it
removes nothing. -/
def UnregisterTarget (Target : Option Nat) (Targets : Finset Nat) : Bool × Finset Nat :=
  match Target with
  | none => (false, Targets)
  | some t =>
    let removed : Bool := t ∈ Targets
    (removed, Targets.erase t)

end UTargetManager

/-- Unlock reasons supported by DefaultTargetHandler
(DefaultTargetHandler.h lines 22–30). -/
inductive EUnlockReasonBitmask where
  | TargetInvalidation
  | OutOfLostDistance
  | LineOfSightFail
  | HelperComponentDiscard
  | CapturedSocketInvalidation
deriving DecidableEq, Repr

/-- Bit value of each unlock reason (DefaultTargetHandler.h lines 24–28). -/
def EUnlockReasonBitmask.bit : EUnlockReasonBitmask → Nat
  | .TargetInvalidation => 1
  | .OutOfLostDistance => 2
  | .LineOfSightFail => 4
  | .HelperComponentDiscard => 8
  | .CapturedSocketInvalidation => 16

/-- FTargetInfo: the Target (a helper component, identified by a Nat) together
with the captured socket name (a Nat); the null target is none. -/
def FTargetInfo : Type := Option (Nat × Nat)
deriving DecidableEq

/-- FTargetModifier (DefaultTargetHandler.h lines 36–50): a TargetInfo and the
modifier associated with it, the modifier defaulting to FLT_MAX. -/
structure FTargetModifier where
  TargetInfo : FTargetInfo
  Modifier : ℚ
deriving DecidableEq

/-- FTargetModifier's default constructor: null target, Modifier = FLT_MAX
(DefaultTargetHandler.h lines 41, 45–49). -/
def FTargetModifier.default : FTargetModifier := ⟨none, FLT_MAX⟩

/-- Modelled from the spec: the FTargetModifier(const FTargetContext&)
constructor declared at DefaultTargetHandler.h line 42 (body not in the
sources): it captures the iterated (target, socket) pair in TargetInfo while
the Modifier field keeps its FLT_MAX initialiser. -/
def FTargetModifier.fromContext (target socket : Nat) : FTargetModifier :=
  ⟨some (target, socket), FLT_MAX⟩

/-- FFindTargetContext (DefaultTargetHandler.h lines 90–128): raw player
input, the currently locked (target, socket) pair, and whether any target is
locked (bIsSwitchingTarget, header line 119–121). -/
structure FFindTargetContext where
  PlayerRawInput : ℚ × ℚ
  CurrentTarget : Option (Nat × Nat)
  bIsSwitchingTarget : Bool
deriving DecidableEq

/-- A registered candidate: a targeting helper component with its socket
list. -/
structure Candidate where
  cid : Nat
  sockets : List Nat
deriving DecidableEq

/-- The evaluation environment: the registry contents and the overridable
capability hooks of UDefaultTargetHandler (spec §9 names them IsEligibleCustom,
ComputeModifier, PostCheck; the header declares them as IsTargetable /
IsTargetableCustom, PreModifierCalculationCheck, CalculateTargetModifier and
PostModifierCalculationCheck).  Their geometric bodies are outside the claims,
so they are abstract functions of the context and the iterated pair. -/
structure EvalEnv where
  candidates : List Candidate
  IsTargetable : Nat → Bool
  PreHook : FFindTargetContext → Nat → Nat → Bool
  CalculateTargetModifier : FFindTargetContext → Nat → Nat → ℚ
  PostModifierCalculationCheck : FFindTargetContext → Nat → Nat → Bool

/-- Modelled from the spec: PreModifierCalculationCheck (declared at
DefaultTargetHandler.h line 259, body not in the sources).  Per spec §4.5 the
switching pass excludes the currently locked (candidate, socket) pair; the
remaining cheap per-socket checks (screen validity, AngleRange window, §4.3)
are the abstract PreHook. -/
def PreModifierCalculationCheck (env : EvalEnv) (ctx : FFindTargetContext)
    (target socket : Nat) : Bool :=
  (!(ctx.bIsSwitchingTarget && ctx.CurrentTarget == some (target, socket)))
    && env.PreHook ctx target socket

/-- Modelled from the spec: the per-socket body of FindBestSocket (spec §4.3,
§9.3; header lines 138–141): run the cheap pre-check; compute the modifier;
only if it is strictly smaller than the best so far, run the expensive
post-check; only if that passes, commit the socket with its modifier. -/
def FindBestSocketStep (env : EvalEnv) (ctx : FFindTargetContext) (target : Nat)
    (TargetModifier : FTargetModifier) (Socket : Nat) : FTargetModifier :=
  if PreModifierCalculationCheck env ctx target Socket then
    let CurrentModifier := env.CalculateTargetModifier ctx target Socket
    if CurrentModifier < TargetModifier.Modifier then
      if env.PostModifierCalculationCheck ctx target Socket then
        { FTargetModifier.fromContext target Socket with Modifier := CurrentModifier }
      else TargetModifier
    else TargetModifier
  else TargetModifier

/-- Modelled from the spec: FindBestSocket (declared at
DefaultTargetHandler.h line 256, body not in the sources): iterate the
target's sockets, threading the best-so-far FTargetModifier (passed by
reference in the header's signature). -/
def FindBestSocket (env : EvalEnv) (ctx : FFindTargetContext) (target : Nat)
    (sockets : List Nat) (TargetModifier : FTargetModifier) : FTargetModifier :=
  sockets.foldl (FindBestSocketStep env ctx target) TargetModifier

/-- The per-candidate body of FindTargetInternal: process a candidate through
FindBestSocket when it passes the targetability filter, else leave the
best-so-far unchanged. -/
def FindTargetStep (env : EvalEnv) (ctx : FFindTargetContext)
    (BestTarget : FTargetModifier) (c : Candidate) : FTargetModifier :=
  if env.IsTargetable c.cid then FindBestSocket env ctx c.cid c.sockets BestTarget
  else BestTarget

/-- Modelled from the spec: FindTargetInternal (declared at
DefaultTargetHandler.h line 243, body not in the sources; execution-flow
comment lines 134–141): iterate the registered helper components, and for each
targetable one run FindBestSocket on the shared best-so-far accumulator, which
starts as a default FTargetModifier. -/
def FindTargetInternal (env : EvalEnv) (ctx : FFindTargetContext) : FTargetModifier :=
  env.candidates.foldl (FindTargetStep env ctx) FTargetModifier.default

/-- Modelled from the spec: FindTarget_Implementation (declared at
DefaultTargetHandler.h line 237, body not in the sources): build an
FFindTargetContext from the player input and the current lock (switching
exactly when a target is locked), run FindTargetInternal and return its
TargetInfo. -/
def FindTarget_Implementation (env : EvalEnv) (PlayerInput : ℚ × ℚ)
    (locked : Option (Nat × Nat)) : FTargetInfo :=
  (FindTargetInternal env ⟨PlayerInput, locked, locked.isSome⟩).TargetInfo

/-- A (candidate, socket) pair is eligible in an evaluation pass when the
candidate is registered, carries the socket, passes the targetability filter,
and the pair passes both the cheap pre-check and the expensive post-check. -/
def Eligible (env : EvalEnv) (ctx : FFindTargetContext) (target socket : Nat) : Prop :=
  (∃ c ∈ env.candidates, c.cid = target ∧ socket ∈ c.sockets) ∧
    env.IsTargetable target = true ∧
    PreModifierCalculationCheck env ctx target socket = true ∧
    env.PostModifierCalculationCheck ctx target socket = true

instance (env : EvalEnv) (ctx : FFindTargetContext) (target socket : Nat) :
    Decidable (Eligible env ctx target socket) := by
  unfold Eligible; infer_instance

/-- A concrete finding-pass environment: two single-socket candidates with
modifiers 3 and 2, all hooks passing. -/
def envW : EvalEnv :=
  ⟨[⟨1, [10]⟩, ⟨2, [20]⟩], fun _ => true, fun _ _ _ => true,
    fun _ c _ => if c = 1 then 3 else 2, fun _ _ _ => true⟩

/-- A concrete finding-pass context: no lock, zero input. -/
def ctxW : FFindTargetContext := ⟨(0, 0), none, false⟩

/-- Invariant of the best-so-far accumulator: whenever it holds a target,
that (candidate, socket) pair is eligible and the stored modifier is that
pair's computed modifier. -/
def TMInv (env : EvalEnv) (ctx : FFindTargetContext) (tm : FTargetModifier) : Prop :=
  ∀ p : Nat × Nat, tm.TargetInfo = some p →
    Eligible env ctx p.1 p.2 ∧ tm.Modifier = env.CalculateTargetModifier ctx p.1 p.2

/-- Instrumented variant of FindBestSocketStep that additionally records, for
each invocation of the expensive PostModifierCalculationCheck, the socket, the
modifier just computed for it, and the best-so-far modifier at that moment. -/
def PostCheckTraceStep (env : EvalEnv) (ctx : FFindTargetContext) (target : Nat)
    (st : FTargetModifier × List (Nat × ℚ × ℚ)) (Socket : Nat) :
    FTargetModifier × List (Nat × ℚ × ℚ) :=
  if PreModifierCalculationCheck env ctx target Socket then
    let CurrentModifier := env.CalculateTargetModifier ctx target Socket
    if CurrentModifier < st.1.Modifier then
      ((if env.PostModifierCalculationCheck ctx target Socket then
          { FTargetModifier.fromContext target Socket with Modifier := CurrentModifier }
        else st.1),
        st.2 ++ [(Socket, CurrentModifier, st.1.Modifier)])
    else st
  else st

/-- Instrumented FindBestSocket: same result, plus the record of every
post-check invocation. -/
def PostCheckTrace (env : EvalEnv) (ctx : FFindTargetContext) (target : Nat)
    (sockets : List Nat) (TargetModifier : FTargetModifier) :
    FTargetModifier × List (Nat × ℚ × ℚ) :=
  sockets.foldl (PostCheckTraceStep env ctx target) (TargetModifier, [])

/-- Configuration of UDefaultTargetHandler relevant to the claims
(DefaultTargetHandler.h lines 161, 216, 227). -/
structure HandlerConfig where
  AutoFindTargetFlags : Nat
  bLineOfSightCheck : Bool
  LostTargetDelay : ℚ

/-- Modelled from the spec: StartLineOfSightTimer (declared at
DefaultTargetHandler.h line 282, body not in the sources): arms the
LOSDelayHandler timer with LostTargetDelay, but only when LostTargetDelay is
positive — otherwise periodic tracing is disabled entirely (spec §4.4, header
comment lines 222–225). -/
def StartLineOfSightTimer (cfg : HandlerConfig) (LOSDelayHandler : Option ℚ) : Option ℚ :=
  if 0 < cfg.LostTargetDelay then some cfg.LostTargetDelay else LOSDelayHandler

/-- Modelled from the spec: StopLineOfSightTimer (declared at
DefaultTargetHandler.h line 283, body not in the sources): clears the timer. -/
def StopLineOfSightTimer (_ : Option ℚ) : Option ℚ := none

/-- Timer operations the handler can perform on the LOSDelayHandler. -/
inductive TimerOp where
  | start
  | stop
deriving DecidableEq, Repr

/-- Run a sequence of timer operations on the LOSDelayHandler. -/
def runTimerOps (cfg : HandlerConfig) (LOSDelayHandler : Option ℚ)
    (ops : List TimerOp) : Option ℚ :=
  ops.foldl
    (fun t op =>
      match op with
      | .start => StartLineOfSightTimer cfg t
      | .stop => StopLineOfSightTimer t) LOSDelayHandler

/-- Modelled from the spec: the LineOfSightTracker state (spec §4.4): Clear,
or Occluded with the remaining countdown; expiration is terminal for the
current lock. -/
inductive LOSState where
  | clear
  | occluded (remaining : ℚ)
  | expired
deriving DecidableEq, Repr

/-- An event seen by the LineOfSightTracker: a periodic trace result (hit =
blocked line of sight) or the passage of time. -/
inductive LOSEvent where
  | trace (hit : Bool)
  | elapse (dt : ℚ)
deriving DecidableEq, Repr

/-- Modelled from the spec: one LineOfSightTracker transition (spec §4.4):
a Hit moves Clear to Occluded and starts the LostTargetDelay countdown; a Miss
moves back to Clear and cancels it; if the countdown elapses while Occluded,
the tracker reports the expiration (OnLineOfSightExpiration, header line 284)
exactly once and the lock ends.  Returns the next state and whether an
expiration event was emitted. -/
def LOSStep (LostTargetDelay : ℚ) : LOSState → LOSEvent → LOSState × Bool
  | .clear, .trace true => (.occluded LostTargetDelay, false)
  | .clear, .trace false => (.clear, false)
  | .clear, .elapse _ => (.clear, false)
  | .occluded r, .trace true => (.occluded r, false)
  | .occluded _, .trace false => (.clear, false)
  | .occluded r, .elapse dt =>
      if dt < r then (.occluded (r - dt), false) else (.expired, true)
  | .expired, _ => (.expired, false)

/-- Run the LineOfSightTracker over a list of events, accumulating the state
and the number of expiration events emitted. -/
def LOSRunAux (LostTargetDelay : ℚ) (st : LOSState × Nat) (events : List LOSEvent) :
    LOSState × Nat :=
  events.foldl
    (fun p e =>
      let next := LOSStep LostTargetDelay p.1 e
      (next.1, p.2 + (if next.2 then 1 else 0))) st

/-- Run the LineOfSightTracker from a state with no expirations recorded. -/
def LOSRun (LostTargetDelay : ℚ) (st : LOSState) (events : List LOSEvent) :
    LOSState × Nat :=
  LOSRunAux LostTargetDelay (st, 0) events

/-- The handler state an unlock event acts on: the line-of-sight timer and the
currently locked pair. -/
structure HandlerState where
  LOSDelayHandler : Option ℚ
  LockedTarget : Option (Nat × Nat)
deriving DecidableEq

/-- Modelled from the spec: OnTargetUnlocked (declared at
DefaultTargetHandler.h line 239, body not in the sources) together with the
auto-find step of HandleTargetClearing (header line 276): the unlock event
stops any running line-of-sight timer and clears the lock; then, if the bit of
the unlock reason is set in AutoFindTargetFlags, it immediately re-attempts
FindTarget with zero player input (spec §4.5). -/
def OnTargetUnlocked (env : EvalEnv) (cfg : HandlerConfig)
    (UnlockReason : EUnlockReasonBitmask) (st : HandlerState) : HandlerState :=
  let cleared : HandlerState := ⟨StopLineOfSightTimer st.LOSDelayHandler, none⟩
  if cfg.AutoFindTargetFlags &&& UnlockReason.bit ≠ 0 then
    ⟨cleared.LOSDelayHandler, FindTarget_Implementation env (0, 0) none⟩
  else cleared

/-- A concrete environment with one candidate having two sockets: socket 10
scores 5 and passes the post-check, socket 20 scores 3 (better) but fails the
post-check. -/
def env2 : EvalEnv :=
  ⟨[⟨1, [10, 20]⟩], fun _ => true, fun _ _ _ => true,
    fun _ _ s => if s = 10 then 5 else 3, fun _ _ s => s != 20⟩

/-- A concrete finding-pass context for env2. -/
def ctx2 : FFindTargetContext := ⟨(0, 0), none, false⟩

/-- A concrete switching-pass environment whose only candidate socket is the
currently locked pair (1, 10). -/
def env3 : EvalEnv :=
  ⟨[⟨1, [10]⟩], fun _ => true, fun _ _ _ => true, fun _ _ _ => 1, fun _ _ _ => true⟩

/-- A concrete switching-pass context locked onto (1, 10) with rightward
input. -/
def ctx3 : FFindTargetContext := ⟨(1, 0), some (1, 10), true⟩

/-- An environment with an empty registry. -/
def envE : EvalEnv :=
  ⟨[], fun _ => true, fun _ _ _ => true, fun _ _ _ => 1, fun _ _ _ => true⟩

/-- An environment with one registered candidate that the targetability
filter rejects. -/
def envN : EvalEnv :=
  ⟨[⟨1, [10]⟩], fun _ => false, fun _ _ _ => true, fun _ _ _ => 1, fun _ _ _ => true⟩

/-- A configuration with line-of-sight checking on but LostTargetDelay = 0. -/
def cfgT : HandlerConfig := ⟨1, true, 0⟩

/-- A configuration whose AutoFindTargetFlags contains TargetInvalidation. -/
def cfgA : HandlerConfig := ⟨1, true, 5⟩

/-- A configuration with no AutoFindTargetFlags set. -/
def cfgN : HandlerConfig := ⟨0, true, 5⟩

/-- A concrete handler state: timer armed, a target locked. -/
def stH : HandlerState := ⟨some 5, some (9, 9)⟩

lemma FindBestSocketStep_mono (env : EvalEnv) (ctx : FFindTargetContext)
    (target : Nat) (tm : FTargetModifier) (s : Nat) :
    (FindBestSocketStep env ctx target tm s).Modifier ≤ tm.Modifier := by
  simp only [FindBestSocketStep]
  split_ifs with h1 h2 h3
  · exact le_of_lt h2
  · exact le_refl _
  · exact le_refl _
  · exact le_refl _

lemma FindBestSocketStep_self_or_lt (env : EvalEnv) (ctx : FFindTargetContext)
    (target : Nat) (tm : FTargetModifier) (s : Nat) :
    FindBestSocketStep env ctx target tm s = tm ∨
      (FindBestSocketStep env ctx target tm s).Modifier < tm.Modifier := by
  simp only [FindBestSocketStep]
  split_ifs with h1 h2 h3
  · exact Or.inr h2
  · exact Or.inl rfl
  · exact Or.inl rfl
  · exact Or.inl rfl

lemma FindBestSocketStep_commit (env : EvalEnv) (ctx : FFindTargetContext)
    (target : Nat) (tm : FTargetModifier) (s : Nat)
    (hpre : PreModifierCalculationCheck env ctx target s = true)
    (hlt : env.CalculateTargetModifier ctx target s < tm.Modifier)
    (hpost : env.PostModifierCalculationCheck ctx target s = true) :
    FindBestSocketStep env ctx target tm s =
      ⟨some (target, s), env.CalculateTargetModifier ctx target s⟩ := by
  unfold FindBestSocketStep
  rw [if_pos hpre, if_pos hlt, if_pos hpost]
  rfl

lemma FindBestSocketStep_not_lt (env : EvalEnv) (ctx : FFindTargetContext)
    (target : Nat) (tm : FTargetModifier) (s : Nat)
    (h : ¬ env.CalculateTargetModifier ctx target s < tm.Modifier) :
    FindBestSocketStep env ctx target tm s = tm := by
  simp only [FindBestSocketStep]
  split_ifs with h1
  · rfl
  · rfl

lemma FindBestSocketStep_postfail (env : EvalEnv) (ctx : FFindTargetContext)
    (target : Nat) (tm : FTargetModifier) (s : Nat)
    (hpost : env.PostModifierCalculationCheck ctx target s = false) :
    FindBestSocketStep env ctx target tm s = tm := by
  simp only [FindBestSocketStep]
  split_ifs with h1 h2 h3
  · rw [hpost] at h3; exact absurd h3 (by simp)
  · rfl
  · rfl
  · rfl

lemma FindBestSocket_mono (env : EvalEnv) (ctx : FFindTargetContext)
    (target : Nat) (sockets : List Nat) (tm : FTargetModifier) :
    (FindBestSocket env ctx target sockets tm).Modifier ≤ tm.Modifier := by
  induction sockets generalizing tm with
  | nil => exact le_refl _
  | cons s rest ih =>
      exact le_trans (ih (FindBestSocketStep env ctx target tm s))
        (FindBestSocketStep_mono env ctx target tm s)

lemma FindBestSocket_le_eligible (env : EvalEnv) (ctx : FFindTargetContext)
    (target : Nat) (sockets : List Nat) (tm : FTargetModifier) (s : Nat)
    (hs : s ∈ sockets)
    (hpre : PreModifierCalculationCheck env ctx target s = true)
    (hpost : env.PostModifierCalculationCheck ctx target s = true) :
    (FindBestSocket env ctx target sockets tm).Modifier ≤
      env.CalculateTargetModifier ctx target s := by
  induction sockets generalizing tm with
  | nil => cases hs
  | cons s0 rest ih =>
      rcases List.mem_cons.mp hs with heq | hmem
      · subst heq
        by_cases hlt : env.CalculateTargetModifier ctx target s < tm.Modifier
        · rw [FindBestSocket, List.foldl_cons,
            FindBestSocketStep_commit env ctx target tm s hpre hlt hpost]
          exact FindBestSocket_mono env ctx target rest _
        · rw [FindBestSocket, List.foldl_cons, FindBestSocketStep_not_lt env ctx target tm s hlt]
          exact le_trans (FindBestSocket_mono env ctx target rest tm) (le_of_not_lt hlt)
      · exact ih (FindBestSocketStep env ctx target tm s0) hmem

lemma FindBestSocketStep_inv (env : EvalEnv) (ctx : FFindTargetContext)
    (target : Nat) (tm : FTargetModifier) (s : Nat)
    (hmem : ∃ c ∈ env.candidates, c.cid = target ∧ s ∈ c.sockets)
    (htg : env.IsTargetable target = true)
    (hinv : TMInv env ctx tm) :
    TMInv env ctx (FindBestSocketStep env ctx target tm s) := by
  simp only [FindBestSocketStep]
  split_ifs with h1 h2 h3
  · intro p hp
    have hps : some (target, s) = some p := hp
    injection hps with hq
    subst hq
    exact ⟨⟨hmem, htg, h1, h3⟩, rfl⟩
  · exact hinv
  · exact hinv
  · exact hinv

lemma FindBestSocket_inv (env : EvalEnv) (ctx : FFindTargetContext)
    (target : Nat) (sockets : List Nat) (tm : FTargetModifier)
    (hmem : ∀ s ∈ sockets, ∃ c ∈ env.candidates, c.cid = target ∧ s ∈ c.sockets)
    (htg : env.IsTargetable target = true)
    (hinv : TMInv env ctx tm) :
    TMInv env ctx (FindBestSocket env ctx target sockets tm) := by
  induction sockets generalizing tm with
  | nil => exact hinv
  | cons s0 rest ih =>
      exact ih (FindBestSocketStep env ctx target tm s0)
        (fun s hs => hmem s (List.mem_cons_of_mem s0 hs))
        (FindBestSocketStep_inv env ctx target tm s0
          (hmem s0 (List.mem_cons_self s0 rest)) htg hinv)

lemma FindTargetStep_mono (env : EvalEnv) (ctx : FFindTargetContext)
    (tm : FTargetModifier) (c : Candidate) :
    (FindTargetStep env ctx tm c).Modifier ≤ tm.Modifier := by
  unfold FindTargetStep
  split_ifs with h
  · exact FindBestSocket_mono env ctx c.cid c.sockets tm
  · exact le_refl _

lemma FindTargetFold_mono (env : EvalEnv) (ctx : FFindTargetContext)
    (cs : List Candidate) (tm : FTargetModifier) :
    (cs.foldl (FindTargetStep env ctx) tm).Modifier ≤ tm.Modifier := by
  induction cs generalizing tm with
  | nil => exact le_refl _
  | cons c rest ih =>
      exact le_trans (ih (FindTargetStep env ctx tm c)) (FindTargetStep_mono env ctx tm c)

lemma FindTargetStep_inv (env : EvalEnv) (ctx : FFindTargetContext)
    (tm : FTargetModifier) (c : Candidate) (hc : c ∈ env.candidates)
    (hinv : TMInv env ctx tm) :
    TMInv env ctx (FindTargetStep env ctx tm c) := by
  unfold FindTargetStep
  split_ifs with h
  · exact FindBestSocket_inv env ctx c.cid c.sockets tm
      (fun s hs => ⟨c, hc, rfl, hs⟩) h hinv
  · exact hinv

lemma FindTargetFold_inv (env : EvalEnv) (ctx : FFindTargetContext)
    (cs : List Candidate) (tm : FTargetModifier)
    (hsub : ∀ c ∈ cs, c ∈ env.candidates) (hinv : TMInv env ctx tm) :
    TMInv env ctx (cs.foldl (FindTargetStep env ctx) tm) := by
  induction cs generalizing tm with
  | nil => exact hinv
  | cons c rest ih =>
      exact ih (FindTargetStep env ctx tm c)
        (fun c' hc' => hsub c' (List.mem_cons_of_mem c hc'))
        (FindTargetStep_inv env ctx tm c (hsub c (List.mem_cons_self c rest)) hinv)

lemma FindTargetInternal_inv (env : EvalEnv) (ctx : FFindTargetContext) :
    TMInv env ctx (FindTargetInternal env ctx) := by
  unfold FindTargetInternal
  refine FindTargetFold_inv env ctx env.candidates FTargetModifier.default
    (fun c hc => hc) ?_
  intro p hp
  exact absurd hp (by simp [FTargetModifier.default])

lemma FindTargetFold_le_eligible (env : EvalEnv) (ctx : FFindTargetContext)
    (cs : List Candidate) (tm : FTargetModifier) (c : Candidate) (s : Nat)
    (hc : c ∈ cs) (htg : env.IsTargetable c.cid = true) (hs : s ∈ c.sockets)
    (hpre : PreModifierCalculationCheck env ctx c.cid s = true)
    (hpost : env.PostModifierCalculationCheck ctx c.cid s = true) :
    (cs.foldl (FindTargetStep env ctx) tm).Modifier ≤
      env.CalculateTargetModifier ctx c.cid s := by
  induction cs generalizing tm with
  | nil => cases hc
  | cons c0 rest ih =>
      rcases List.mem_cons.mp hc with heq | hmem
      · subst heq
        have hstep : FindTargetStep env ctx tm c = FindBestSocket env ctx c.cid c.sockets tm := by
          unfold FindTargetStep; rw [if_pos htg]
        calc (List.foldl (FindTargetStep env ctx) (FindTargetStep env ctx tm c) rest).Modifier
            ≤ (FindTargetStep env ctx tm c).Modifier := FindTargetFold_mono env ctx rest _
          _ ≤ env.CalculateTargetModifier ctx c.cid s := by
              rw [hstep]
              exact FindBestSocket_le_eligible env ctx c.cid c.sockets tm s hs hpre hpost
      · exact ih (FindTargetStep env ctx tm c0) hmem

lemma FindTargetInternal_le_eligible (env : EvalEnv) (ctx : FFindTargetContext)
    (target socket : Nat) (hel : Eligible env ctx target socket) :
    (FindTargetInternal env ctx).Modifier ≤
      env.CalculateTargetModifier ctx target socket := by
  obtain ⟨⟨c, hc, hcid, hs⟩, htg, hpre, hpost⟩ := hel
  subst hcid
  exact FindTargetFold_le_eligible env ctx env.candidates FTargetModifier.default c socket
    hc htg hs hpre hpost

lemma FindTargetInternal_none_of_no_eligible (env : EvalEnv) (ctx : FFindTargetContext)
    (h : ¬ ∃ target socket, Eligible env ctx target socket) :
    (FindTargetInternal env ctx).TargetInfo = none := by
  cases hti : (FindTargetInternal env ctx).TargetInfo with
  | none => rfl
  | some p =>
      exact absurd ⟨p.1, p.2, (FindTargetInternal_inv env ctx p hti).1⟩ h

lemma PostCheckTraceStep_fst (env : EvalEnv) (ctx : FFindTargetContext) (target : Nat)
    (st : FTargetModifier × List (Nat × ℚ × ℚ)) (s : Nat) :
    (PostCheckTraceStep env ctx target st s).1 = FindBestSocketStep env ctx target st.1 s := by
  simp only [PostCheckTraceStep, FindBestSocketStep]
  split_ifs <;> rfl

lemma PostCheckTraceFold_fst (env : EvalEnv) (ctx : FFindTargetContext) (target : Nat)
    (sockets : List Nat) (st : FTargetModifier × List (Nat × ℚ × ℚ)) :
    (sockets.foldl (PostCheckTraceStep env ctx target) st).1 =
      FindBestSocket env ctx target sockets st.1 := by
  induction sockets generalizing st with
  | nil => rfl
  | cons s0 rest ih =>
      rw [List.foldl_cons, ih, PostCheckTraceStep_fst env ctx target st s0]
      conv_rhs => rw [FindBestSocket, List.foldl_cons]
      rfl

lemma PostCheckTrace_fst (env : EvalEnv) (ctx : FFindTargetContext) (target : Nat)
    (sockets : List Nat) (tm : FTargetModifier) :
    (PostCheckTrace env ctx target sockets tm).1 = FindBestSocket env ctx target sockets tm :=
  PostCheckTraceFold_fst env ctx target sockets (tm, [])

lemma PostCheckTraceStep_guard (env : EvalEnv) (ctx : FFindTargetContext) (target : Nat)
    (st : FTargetModifier × List (Nat × ℚ × ℚ)) (s : Nat)
    (h : ∀ e ∈ st.2, e.2.1 < e.2.2) :
    ∀ e ∈ (PostCheckTraceStep env ctx target st s).2, e.2.1 < e.2.2 := by
  simp only [PostCheckTraceStep]
  split_ifs with h1 h2 h3
  · intro e he
    rcases List.mem_append.mp he with hin | hnew
    · exact h e hin
    · have heq : e = (s, env.CalculateTargetModifier ctx target s, st.1.Modifier) :=
        List.mem_singleton.mp hnew
      subst heq
      exact h2
  · intro e he
    rcases List.mem_append.mp he with hin | hnew
    · exact h e hin
    · have heq : e = (s, env.CalculateTargetModifier ctx target s, st.1.Modifier) :=
        List.mem_singleton.mp hnew
      subst heq
      exact h2
  · exact h
  · exact h

lemma PostCheckTraceFold_guard (env : EvalEnv) (ctx : FFindTargetContext) (target : Nat)
    (sockets : List Nat) (st : FTargetModifier × List (Nat × ℚ × ℚ))
    (h : ∀ e ∈ st.2, e.2.1 < e.2.2) :
    ∀ e ∈ (sockets.foldl (PostCheckTraceStep env ctx target) st).2, e.2.1 < e.2.2 := by
  induction sockets generalizing st with
  | nil => exact h
  | cons s0 rest ih =>
      exact ih (PostCheckTraceStep env ctx target st s0)
        (PostCheckTraceStep_guard env ctx target st s0 h)

lemma FindBestSocket_all_postfail (env : EvalEnv) (ctx : FFindTargetContext)
    (target : Nat) (sockets : List Nat) (tm : FTargetModifier)
    (h : ∀ s ∈ sockets, env.PostModifierCalculationCheck ctx target s = false) :
    FindBestSocket env ctx target sockets tm = tm := by
  induction sockets generalizing tm with
  | nil => rfl
  | cons s0 rest ih =>
      rw [FindBestSocket, List.foldl_cons,
        FindBestSocketStep_postfail env ctx target tm s0 (h s0 (List.mem_cons_self s0 rest))]
      exact ih tm (fun s hs => h s (List.mem_cons_of_mem s0 hs))

lemma LOSStep_expired (LostTargetDelay : ℚ) (e : LOSEvent) :
    LOSStep LostTargetDelay .expired e = (.expired, false) := by
  cases e with
  | trace hit => cases hit <;> rfl
  | elapse dt => rfl

lemma LOSRunAux_expired (LostTargetDelay : ℚ) (events : List LOSEvent) (n : Nat) :
    LOSRunAux LostTargetDelay (.expired, n) events = (.expired, n) := by
  induction events generalizing n with
  | nil => rfl
  | cons e rest ih =>
      rw [LOSRunAux, List.foldl_cons]
      simp only [LOSStep_expired]
      exact ih n

lemma LOSRunAux_elapses_lt (LostTargetDelay : ℚ) (dts : List ℚ) (r : ℚ) (n : Nat)
    (hpos : ∀ d ∈ dts, 0 ≤ d) (hlt : dts.sum < r) :
    LOSRunAux LostTargetDelay (.occluded r, n) (dts.map .elapse) =
      (.occluded (r - dts.sum), n) := by
  induction dts generalizing r n with
  | nil => simp [LOSRunAux]
  | cons d rest ih =>
      have hd : 0 ≤ d := hpos d (List.mem_cons_self d rest)
      have hrest : 0 ≤ rest.sum := List.sum_nonneg (fun x hx => hpos x (List.mem_cons_of_mem d hx))
      have hsum : d + rest.sum < r := by simpa [List.sum_cons] using hlt
      have hdr : d < r := lt_of_le_of_lt (le_add_of_nonneg_right hrest) hsum
      rw [List.map_cons, LOSRunAux, List.foldl_cons]
      simp only [LOSStep, if_pos hdr]
      have := ih (r - d) n (fun x hx => hpos x (List.mem_cons_of_mem d hx))
        (by linarith)
      rw [LOSRunAux] at this
      simpa [List.sum_cons, sub_sub] using this

lemma LOSRunAux_elapses_ge (LostTargetDelay : ℚ) (dts : List ℚ) (r : ℚ) (n : Nat)
    (hpos : ∀ d ∈ dts, 0 ≤ d) (hr : 0 < r) (hge : r ≤ dts.sum) :
    LOSRunAux LostTargetDelay (.occluded r, n) (dts.map .elapse) = (.expired, n + 1) := by
  induction dts generalizing r n with
  | nil =>
      exact absurd (lt_of_lt_of_le hr hge) (by simp)
  | cons d rest ih =>
      rw [List.map_cons, LOSRunAux, List.foldl_cons]
      by_cases hdr : d < r
      · simp only [LOSStep, if_pos hdr]
        have := ih (r - d) n (fun x hx => hpos x (List.mem_cons_of_mem d hx))
          (by linarith) (by simp [List.sum_cons] at hge; linarith)
        rw [LOSRunAux] at this
        simpa using this
      · simp only [LOSStep, if_neg hdr]
        have := LOSRunAux_expired LostTargetDelay (rest.map .elapse) (n + 1)
        rw [LOSRunAux] at this
        simpa using this


/-- C1: in every evaluation pass (finding or switching), if a target is
returned then its modifier is less than or equal to the modifier of every
eligible (candidate, socket) pair computed in that pass, and if no pair is
eligible then no target is returned. -/
theorem C1_global_minimum (env : EvalEnv) (ctx : FFindTargetContext) :
    (∀ p : Nat × Nat, (FindTargetInternal env ctx).TargetInfo = some p →
      ∀ target socket, Eligible env ctx target socket →
        (FindTargetInternal env ctx).Modifier ≤
          env.CalculateTargetModifier ctx target socket) ∧
    ((¬ ∃ target socket, Eligible env ctx target socket) →
      (FindTargetInternal env ctx).TargetInfo = none) :=
  ⟨fun _ _ target socket hel => FindTargetInternal_le_eligible env ctx target socket hel,
   FindTargetInternal_none_of_no_eligible env ctx⟩

/-- C1 witness: in the concrete environment envW the returned target is
(2, 20) and its modifier is bounded by the eligible pair (1, 10)'s. -/
theorem C1_global_minimum_witness :
    (FindTargetInternal envW ctxW).TargetInfo = some (2, 20) ∧
    Eligible envW ctxW 1 10 ∧
    (FindTargetInternal envW ctxW).Modifier ≤
      envW.CalculateTargetModifier ctxW 1 10 :=
  ⟨by decide, by decide,
   (C1_global_minimum envW ctxW).1 (2, 20) (by decide) 1 10 (by decide)⟩

/-- C2 (amended): the expensive post-check runs only for sockets whose newly
computed modifier is strictly smaller than the best-so-far modifier at that
moment; when the post-check fails the socket is rejected and the best-so-far
is left unchanged (a previously accepted socket is retained); the candidate
contributes no socket when the post-check fails for all of its sockets. -/
theorem C2_postcheck_gating (env : EvalEnv) (ctx : FFindTargetContext)
    (target : Nat) (sockets : List Nat) (tm : FTargetModifier) :
    (∀ e ∈ (PostCheckTrace env ctx target sockets tm).2, e.2.1 < e.2.2) ∧
    (∀ (tm' : FTargetModifier) (s : Nat),
      env.PostModifierCalculationCheck ctx target s = false →
        FindBestSocketStep env ctx target tm' s = tm') ∧
    ((tm.TargetInfo = none ∧
        ∀ s ∈ sockets, env.PostModifierCalculationCheck ctx target s = false) →
      (FindBestSocket env ctx target sockets tm).TargetInfo = none) := by
  refine ⟨PostCheckTraceFold_guard env ctx target sockets (tm, []) (by simp),
    fun tm' s hpost => FindBestSocketStep_postfail env ctx target tm' s hpost,
    fun h => ?_⟩
  rw [FindBestSocket_all_postfail env ctx target sockets tm h.2]
  exact h.1

/-- C2 counterexample: in env2 the candidate's socket 20 improves on the
best-so-far (its post-check is consulted, as the trace shows) and fails the
post-check, yet the candidate still contributes the previously accepted worse
socket 10 — contradicting the claim that it contributes no socket. -/
theorem C2_counterexample :
    (PostCheckTrace env2 ctx2 1 [10, 20] FTargetModifier.default).2.map Prod.fst
        = [10, 20] ∧
    env2.PostModifierCalculationCheck ctx2 1 20 = false ∧
    (FindBestSocket env2 ctx2 1 [10, 20] FTargetModifier.default).TargetInfo
        = some (1, 10) :=
  ⟨by decide, by decide, by decide⟩

/-- C2 witness: concrete instance of the amended claim in env2 — the trace
guard holds, a post-check failure leaves the accumulator unchanged, and a
candidate whose only socket fails the post-check contributes nothing. -/
theorem C2_postcheck_gating_witness :
    env2.PostModifierCalculationCheck ctx2 1 20 = false ∧
    FindBestSocketStep env2 ctx2 1 ⟨some (1, 10), 5⟩ 20 = ⟨some (1, 10), 5⟩ ∧
    (FindBestSocket env2 ctx2 1 [20] FTargetModifier.default).TargetInfo = none :=
  ⟨by decide,
   (C2_postcheck_gating env2 ctx2 1 [10, 20] FTargetModifier.default).2.1
     ⟨some (1, 10), 5⟩ 20 (by decide),
   (C2_postcheck_gating env2 ctx2 1 [20] FTargetModifier.default).2.2
     ⟨by decide, by decide⟩⟩

/-- C3: a switching pass (a target locked, hence bIsSwitchingTarget) never
returns the currently locked (candidate, socket) pair, and when no different
pair is eligible it returns no target. -/
theorem C3_switching_excludes_current (env : EvalEnv) (ctx : FFindTargetContext)
    (c0 s0 : Nat) (hsw : ctx.bIsSwitchingTarget = true)
    (hcur : ctx.CurrentTarget = some (c0, s0)) :
    (FindTargetInternal env ctx).TargetInfo ≠ some (c0, s0) ∧
    ((¬ ∃ target socket,
        (target, socket) ≠ (c0, s0) ∧ Eligible env ctx target socket) →
      (FindTargetInternal env ctx).TargetInfo = none) := by
  have hprefalse : PreModifierCalculationCheck env ctx c0 s0 = false := by
    simp [PreModifierCalculationCheck, hsw, hcur]
  constructor
  · intro hp
    obtain ⟨-, -, hpre, -⟩ := (FindTargetInternal_inv env ctx (c0, s0) hp).1
    have hpre' : PreModifierCalculationCheck env ctx c0 s0 = true := hpre
    rw [hprefalse] at hpre'
    exact Bool.noConfusion hpre'
  · intro hno
    refine FindTargetInternal_none_of_no_eligible env ctx ?_
    rintro ⟨t, s, hel⟩
    by_cases hts : (t, s) = (c0, s0)
    · have h1 : t = c0 := congrArg Prod.fst hts
      have h2 : s = s0 := congrArg Prod.snd hts
      subst h1; subst h2
      obtain ⟨-, -, hpre, -⟩ := hel
      rw [hprefalse] at hpre
      exact Bool.noConfusion hpre
    · exact hno ⟨t, s, hts, hel⟩

/-- C3 witness: in env3, switching while locked onto (1, 10) — the only
registered pair — returns neither (1, 10) nor anything else. -/
theorem C3_switching_excludes_current_witness :
    ctx3.bIsSwitchingTarget = true ∧ ctx3.CurrentTarget = some (1, 10) ∧
    (FindTargetInternal env3 ctx3).TargetInfo ≠ some (1, 10) ∧
    (FindTargetInternal env3 ctx3).TargetInfo = none :=
  ⟨rfl, rfl, (C3_switching_excludes_current env3 ctx3 1 10 rfl rfl).1, by decide⟩

/-- C4: when LostTargetDelay is not positive, StartLineOfSightTimer never arms
the timer, so any sequence of start/stop operations from an unarmed
LOSDelayHandler leaves it unarmed — no periodic line-of-sight timer is ever
scheduled; line of sight is then only the inline PostModifierCalculationCheck
inside FindBestSocket. -/
theorem C4_no_periodic_timer (cfg : HandlerConfig) (h : cfg.LostTargetDelay ≤ 0) :
    (∀ t : Option ℚ, StartLineOfSightTimer cfg t = t) ∧
    (∀ ops : List TimerOp, runTimerOps cfg none ops = none) := by
  have hstart : ∀ t : Option ℚ, StartLineOfSightTimer cfg t = t := by
    intro t
    unfold StartLineOfSightTimer
    rw [if_neg (not_lt.mpr h)]
  refine ⟨hstart, fun ops => ?_⟩
  induction ops with
  | nil => rfl
  | cons op rest ih =>
      cases op with
      | start =>
          show runTimerOps cfg (StartLineOfSightTimer cfg none) rest = none
          rw [hstart none]
          exact ih
      | stop =>
          show runTimerOps cfg (StopLineOfSightTimer none) rest = none
          exact ih

/-- C4 witness: with the concrete configuration cfgT (LostTargetDelay = 0),
repeated start/stop operations never arm the timer. -/
theorem C4_no_periodic_timer_witness :
    cfgT.LostTargetDelay ≤ 0 ∧
    runTimerOps cfgT none [.start, .start, .stop, .start] = none :=
  ⟨by decide,
   (C4_no_periodic_timer cfgT (by decide)).2 [.start, .start, .stop, .start]⟩

/-- C5: with a positive LostTargetDelay, a Hit followed by a Miss before the
delay has elapsed produces no expiration event (the tracker returns to Clear),
while a Hit sustained for at least the delay produces exactly one expiration
event, terminating the lock (state expired). -/
theorem C5_los_hysteresis (LostTargetDelay : ℚ) (dts : List ℚ)
    (hd : 0 < LostTargetDelay) (hpos : ∀ d ∈ dts, 0 ≤ d) :
    (dts.sum < LostTargetDelay →
      LOSRun LostTargetDelay .clear
        (LOSEvent.trace true :: (dts.map LOSEvent.elapse ++ [LOSEvent.trace false]))
        = (.clear, 0)) ∧
    (LostTargetDelay ≤ dts.sum →
      LOSRun LostTargetDelay .clear (LOSEvent.trace true :: dts.map LOSEvent.elapse)
        = (.expired, 1)) := by
  constructor
  · intro hlt
    show LOSRunAux LostTargetDelay (.occluded LostTargetDelay, 0)
      (dts.map LOSEvent.elapse ++ [LOSEvent.trace false]) = (.clear, 0)
    rw [LOSRunAux, List.foldl_append]
    have h1 := LOSRunAux_elapses_lt LostTargetDelay dts LostTargetDelay 0 hpos hlt
    rw [LOSRunAux] at h1
    rw [h1]
    rfl
  · intro hge
    show LOSRunAux LostTargetDelay (.occluded LostTargetDelay, 0)
      (dts.map LOSEvent.elapse) = (.expired, 1)
    exact LOSRunAux_elapses_ge LostTargetDelay dts LostTargetDelay 0 hpos hd hge

/-- C5 witness: with delay 2, Hit then 1 second then Miss yields no
expiration; Hit then 3 seconds yields exactly one expiration. -/
theorem C5_los_hysteresis_witness :
    LOSRun 2 .clear
        (LOSEvent.trace true :: ([(1 : ℚ)].map LOSEvent.elapse ++ [LOSEvent.trace false]))
      = (.clear, 0) ∧
    LOSRun 2 .clear (LOSEvent.trace true :: [(3 : ℚ)].map LOSEvent.elapse)
      = (.expired, 1) :=
  ⟨(C5_los_hysteresis 2 [1] (by norm_num) (by norm_num)).1
      (by norm_num [List.sum_cons, List.sum_nil]),
   (C5_los_hysteresis 2 [3] (by norm_num) (by norm_num)).2
      (by norm_num [List.sum_cons, List.sum_nil])⟩

/-- C6: registration and unregistration are idempotent and report change:
RegisterTarget returns true exactly when the target was absent, a second
consecutive RegisterTarget returns false and leaves the set unchanged;
UnregisterTarget returns true exactly when the target was present, a second
consecutive UnregisterTarget returns false and leaves the set unchanged. -/
theorem C6_register_idempotent_reports_change (t : Nat) (s : Finset Nat) :
    ((UTargetManager.RegisterTarget (some t) s).1 = true ↔ t ∉ s) ∧
    (UTargetManager.RegisterTarget (some t)
        (UTargetManager.RegisterTarget (some t) s).2
      = (false, (UTargetManager.RegisterTarget (some t) s).2)) ∧
    ((UTargetManager.UnregisterTarget (some t) s).1 = true ↔ t ∈ s) ∧
    (UTargetManager.UnregisterTarget (some t)
        (UTargetManager.UnregisterTarget (some t) s).2
      = (false, (UTargetManager.UnregisterTarget (some t) s).2)) := by
  refine ⟨?_, ?_, ?_, ?_⟩
  · simp [UTargetManager.RegisterTarget]
  · simp [UTargetManager.RegisterTarget, Finset.insert_idem]
  · simp [UTargetManager.UnregisterTarget]
  · simp [UTargetManager.UnregisterTarget, Finset.erase_idem, Finset.not_mem_erase]

/-- C7: an unlock event stops any running line-of-sight timer; if the unlock
reason's bit is set in AutoFindTargetFlags it immediately re-attempts
FindTarget with zero player input, otherwise it leaves the system with no
target. -/
theorem C7_unlock_stops_timer_autofind (env : EvalEnv) (cfg : HandlerConfig)
    (reason : EUnlockReasonBitmask) (st : HandlerState) :
    (OnTargetUnlocked env cfg reason st).LOSDelayHandler = none ∧
    (cfg.AutoFindTargetFlags &&& reason.bit ≠ 0 →
      (OnTargetUnlocked env cfg reason st).LockedTarget
        = FindTarget_Implementation env (0, 0) none) ∧
    (cfg.AutoFindTargetFlags &&& reason.bit = 0 →
      (OnTargetUnlocked env cfg reason st).LockedTarget = none) := by
  unfold OnTargetUnlocked
  split_ifs with h
  · exact ⟨rfl, fun _ => rfl, fun hz => absurd hz h⟩
  · exact ⟨rfl, fun hnz => absurd hnz h, fun _ => rfl⟩

/-- C7 witness: with the TargetInvalidation flag set (cfgA) the unlock event
clears the timer and re-acquires via FindTarget at zero input; with no flags
set (cfgN) it clears the timer and leaves no target. -/
theorem C7_unlock_stops_timer_autofind_witness :
    cfgA.AutoFindTargetFlags &&& EUnlockReasonBitmask.TargetInvalidation.bit ≠ 0 ∧
    (OnTargetUnlocked envW cfgA .TargetInvalidation stH).LOSDelayHandler = none ∧
    (OnTargetUnlocked envW cfgA .TargetInvalidation stH).LockedTarget
      = FindTarget_Implementation envW (0, 0) none ∧
    (OnTargetUnlocked envW cfgN .TargetInvalidation stH).LockedTarget = none :=
  ⟨by decide,
   (C7_unlock_stops_timer_autofind envW cfgA .TargetInvalidation stH).1,
   (C7_unlock_stops_timer_autofind envW cfgA .TargetInvalidation stH).2.1 (by decide),
   (C7_unlock_stops_timer_autofind envW cfgN .TargetInvalidation stH).2.2 (by decide)⟩

/-- C8: FindTarget over an empty registry, or one in which every candidate
fails the targetability filter, returns the explicit no-target value (the
evaluation is a total function — there is no exceptional outcome). -/
theorem C8_no_candidates_no_target (env : EvalEnv) (ctx : FFindTargetContext) :
    (env.candidates = [] → (FindTargetInternal env ctx).TargetInfo = none) ∧
    ((∀ c ∈ env.candidates, env.IsTargetable c.cid = false) →
      (FindTargetInternal env ctx).TargetInfo = none) := by
  constructor
  · intro hnil
    refine FindTargetInternal_none_of_no_eligible env ctx ?_
    rintro ⟨t, s, ⟨c, hc, -, -⟩, -, -, -⟩
    rw [hnil] at hc
    cases hc
  · intro hall
    refine FindTargetInternal_none_of_no_eligible env ctx ?_
    rintro ⟨t, s, ⟨c, hc, hcid, -⟩, htg, -, -⟩
    rw [← hcid] at htg
    rw [hall c hc] at htg
    exact Bool.noConfusion htg

/-- C8 witness: the empty registry envE and the all-rejected registry envN
both yield no target. -/
theorem C8_no_candidates_no_target_witness :
    envE.candidates = [] ∧
    (FindTargetInternal envE ctxW).TargetInfo = none ∧
    (FindTargetInternal envN ctxW).TargetInfo = none :=
  ⟨rfl, (C8_no_candidates_no_target envE ctxW).1 rfl,
   (C8_no_candidates_no_target envN ctxW).2 (by decide)⟩

/-- C9: both FTargetModifier constructors initialise Modifier to FLT_MAX, the
per-socket step either leaves the accumulator unchanged or strictly decreases
its modifier, and over the sockets examined the stored modifier is
non-increasing. -/
theorem C9_modifier_sentinel_and_monotone :
    FTargetModifier.default.Modifier = FLT_MAX ∧
    (∀ target socket : Nat,
      (FTargetModifier.fromContext target socket).Modifier = FLT_MAX) ∧
    (∀ (env : EvalEnv) (ctx : FFindTargetContext) (target : Nat)
        (tm : FTargetModifier) (s : Nat),
      FindBestSocketStep env ctx target tm s = tm ∨
        (FindBestSocketStep env ctx target tm s).Modifier < tm.Modifier) ∧
    (∀ (env : EvalEnv) (ctx : FFindTargetContext) (target : Nat)
        (sockets : List Nat) (tm : FTargetModifier),
      (FindBestSocket env ctx target sockets tm).Modifier ≤ tm.Modifier) :=
  ⟨rfl, fun _ _ => rfl, FindBestSocketStep_self_or_lt, FindBestSocket_mono⟩

/-- C10: RegisterTarget on a null target pointer returns false and leaves the
registered set unchanged. -/
theorem C10_register_null_noop (s : Finset Nat) :
    UTargetManager.RegisterTarget none s = (false, s) :=
  rfl
